import Mathlib

set_option autoImplicit false

/-!
A shallow embedding of the InterviewChatbot repository (files `app.py`,
`server.py`, `mongo.py`) together with proofs about the behaviour of its
question-normalisation and persistence operations.

Python values that flow through the normaliser and the document store are
modelled by the inductive type `PyVal`; Python dictionaries are association
lists of string keys.
-/

/-- A Python/JSON-style value as it appears in LLM responses and in stored
candidate documents.  `time t` models a `datetime` instant as an abstract
tick count. -/
inductive PyVal where
  | str (s : String)
  | int (n : Int)
  | bool (b : Bool)
  | none
  | time (t : Nat)
  | list (xs : List PyVal)
  | dict (kvs : List (String × PyVal))

/-- A Python dict: an association list with string keys. -/
abbrev Doc := List (String × PyVal)

/-- `d.get(k)` on a Python dict: the value at the first matching key. -/
def dget (d : Doc) (k : String) : Option PyVal :=
  match d with
  | [] => Option.none
  | (k', v) :: rest => if k' = k then some v else dget rest k

/-- Python truthiness of a value. -/
def pyTruthy : PyVal → Bool
  | .str s => s ≠ ""
  | .int n => n ≠ 0
  | .bool b => b
  | .none => false
  | .time _ => true
  | .list xs => !xs.isEmpty
  | .dict kvs => !kvs.isEmpty

/-- Python `a or b`. -/
def pyOr (a b : PyVal) : PyVal := if pyTruthy a then a else b

/-- `d.get(k)` with Python's `None` default. -/
def getOr (d : Doc) (k : String) : PyVal := (dget d k).getD .none

mutual
/-- Python `repr` of a value (quoting strings). -/
def pyRepr : PyVal → String
  | .str s => "\x27" ++ s ++ "\x27"
  | .int n => toString n
  | .bool b => if b then "True" else "False"
  | .none => "None"
  | .time t => "datetime(" ++ toString t ++ ")"
  | .list xs => "[" ++ pyReprList xs ++ "]"
  | .dict kvs => "\x7b" ++ pyReprDict kvs ++ "\x7d"

def pyReprList : List PyVal → String
  | [] => ""
  | [x] => pyRepr x
  | x :: y :: rest => pyRepr x ++ ", " ++ pyReprList (y :: rest)

def pyReprDict : List (String × PyVal) → String
  | [] => ""
  | [(k, v)] => "\x27" ++ k ++ "\x27: " ++ pyRepr v
  | (k, v) :: p :: rest => "\x27" ++ k ++ "\x27: " ++ pyRepr v ++ ", " ++ pyReprDict (p :: rest)
end

/-- Python `str(v)`. -/
def pyStr : PyVal → String
  | .str s => s
  | v => pyRepr v


/-- Drop leading whitespace characters. -/
def dropLeadWs : List Char → List Char
  | [] => []
  | c :: cs => if c.isWhitespace then dropLeadWs cs else c :: cs

/-- Python `s.strip()`: remove leading and trailing whitespace. -/
def pyStrip (s : String) : String :=
  ⟨(dropLeadWs (dropLeadWs s.data.reverse).reverse)⟩


/-! ## The question normaliser (`app.py`, `normalize_q_map`) -/

/-- One normalised question record: `{"question": ..., "ideal_answer_focus": ...}`. -/
structure QA where
  question : String
  ideal_answer_focus : String
deriving DecidableEq, Repr

/-- The first string-valued field of a dict, as used by the normaliser's
fallback `next((str(v) for v in it.values() if isinstance(v, str)), str(it))`. -/
def firstStringField (kvs : Doc) : Option String :=
  kvs.findSome? (fun p => match p.2 with | .str s => some s | _ => Option.none)

/-- The question-extraction chain of `normalize_q_map` for a dict element:
`q = it.get("question") or it.get("q") or it.get("prompt") or ""`. -/
def qChain (kvs : Doc) : PyVal :=
  pyOr (getOr kvs "question") (pyOr (getOr kvs "q") (pyOr (getOr kvs "prompt") (.str "")))

/-- The focus-extraction chain of `normalize_q_map` for a dict element:
`focus = it.get("ideal_answer_focus") or it.get("focus") or ""`. -/
def fChain (kvs : Doc) : PyVal :=
  pyOr (getOr kvs "ideal_answer_focus") (pyOr (getOr kvs "focus") (.str ""))

/-- `normalize_q_map`'s question text for a dict element.  After the `or`
chain, a falsy result triggers the first-string-field fallback; a truthy
non-string result makes Python's `q.strip()` raise `AttributeError`. -/
def questionOf (kvs : Doc) : Except String String :=
  let q0 := qChain kvs
  if pyTruthy q0 then
    match q0 with
    | .str s => .ok s
    | _ => .error "AttributeError: strip on non-string question"
  else
    .ok (match firstStringField kvs with
         | some s => s
         | Option.none => pyStr (.dict kvs))

/-- `normalize_q_map`'s focus text for a dict element: the `or` chain result,
stringified when it is not a string (`if not isinstance(focus, str)`). -/
def focusOf (kvs : Doc) : String :=
  match fChain kvs with
  | .str s => s
  | v => pyStr v

/-- Handling of one dict element of a technology's question list in
`normalize_q_map` (app.py lines 259-266). -/
def normItem (kvs : Doc) : Except String QA :=
  match questionOf kvs with
  | .error e => .error e
  | .ok q => .ok ⟨pyStrip q, pyStrip (focusOf kvs)⟩

/-- Handling of one element of a technology's question list in
`normalize_q_map` (string / dict / other). -/
def normElem : PyVal → Except String QA
  | .str s => .ok ⟨pyStrip s, ""⟩
  | .dict kvs => normItem kvs
  | v => .ok ⟨pyStrip (pyStr v), ""⟩

/-- Handling of one technology's raw entry in `normalize_q_map`:
a plain string, a sequence processed element-by-element, or any other
value stringified as a single question. -/
def normEntry : PyVal → Except String (List QA)
  | .str s => .ok [⟨pyStrip s, ""⟩]
  | .list xs => xs.mapM normElem
  | v => .ok [⟨pyStrip (pyStr v), ""⟩]

/-- `normalize_q_map` (app.py lines 245-273): normalise each technology's
entry in turn, keeping the technologies in input order. -/
def normalize_q_map : List (String × PyVal) → Except String (List (String × List QA))
  | [] => .ok []
  | (tech, items) :: rest =>
    match normEntry items with
    | .error e => .error e
    | .ok qs =>
      match normalize_q_map rest with
      | .error e => .error e
      | .ok out => .ok ((tech, qs) :: out)


/-! ## The server-side question generator (`server.py`, `generate_questions`) -/

/-- The distinct raise sites of `generate_questions` and its Groq helper:
transport failure (client unconfigured / call raised), unparseable JSON
(with the raw text retained), a technology whose entry is missing or not a
list, a technology with fewer than 3 validated questions, and the
`TypeError` corner of membership tests on non-dict JSON. -/
inductive GenError where
  | transport
  | malformed (raw : String)
  | missingTech (tech : String)
  | insufficient (tech : String)
  | typeErr
deriving DecidableEq, Repr

/-- The outcome of the external Groq call: the client is unavailable or the
call raised, or it returned raw text, which either parses as JSON (`some v`)
or does not (`Option.none`). -/
inductive RawOutcome where
  | unavailable
  | returned (raw : String) (parsed : Option PyVal)

/-- `techs_clean = [t.strip() for t in techs if t and t.strip()]`. -/
def techsClean (techs : List String) : List String :=
  (techs.filter (fun t => t ≠ "" && pyStrip t ≠ "")).map pyStrip

/-- Validation of one array element in `generate_questions` (server.py lines
102-105): only a dict containing a `"question"` key produces a record; its
question is `str(item.get("question", "")).strip()` and its focus is empty
when `item.get("ideal_answer_focus")` is `None`, else the stringified,
stripped value. -/
def validItem : PyVal → Option QA
  | .dict kvs =>
    match dget kvs "question" with
    | some qv =>
      some ⟨pyStrip (pyStr qv),
            match dget kvs "ideal_answer_focus" with
            | Option.none => ""
            | some .none => ""
            | some v => pyStrip (pyStr v)⟩
    | Option.none => Option.none
  | _ => Option.none

/-- Validation of one requested technology (server.py lines 98-111): the
parsed entry must be a list; its valid items are filtered, at least 3 are
required, and the first 5 are kept. -/
def validateTech (kvs : List (String × PyVal)) (tech : String) :
    Except GenError (String × List QA) :=
  match dget kvs tech with
  | some (.list items) =>
    let qs := items.filterMap validItem
    if qs.length < 3 then .error (.insufficient tech)
    else .ok (tech, qs.take 5)
  | _ => .error (.missingTech tech)

/-- The validation loop of `generate_questions` over the cleaned technology
list; it stops at the first failing technology. -/
def validateAll (kvs : List (String × PyVal)) : List String → Except GenError (List (String × List QA))
  | [] => .ok []
  | t :: ts =>
    match validateTech kvs t with
    | .error e => .error e
    | .ok entry =>
      match validateAll kvs ts with
      | .error e => .error e
      | .ok rest => .ok (entry :: rest)

/-- Substring test, modelling Python `needle in hay` on strings. -/
def strContains (hay needle : String) : Bool :=
  hay.data.tails.any (fun t => needle.data.isPrefixOf t)

/-- Python `tech in parsed` followed by `parsed[tech]` when `parsed` is not a
dict: membership on a list or string may hold (then indexing by a string
raises `TypeError`) or fail (missing-key `ValueError`); membership on other
values raises `TypeError` directly. -/
def nonDictLookup (parsed : PyVal) (tech : String) : GenError :=
  match parsed with
  | .list xs => if xs.any (fun v => match v with | .str s => s == tech | _ => false)
                then .typeErr else .missingTech tech
  | .str s => if strContains s tech then .typeErr else .missingTech tech
  | _ => .typeErr

/-- `generate_questions` (server.py lines 76-117): empty or blank technology
lists short-circuit to an empty mapping without calling Groq; otherwise the
Groq outcome is parsed and validated technology by technology. -/
def generate_questions (techs : List String) (outcome : RawOutcome) :
    Except GenError (List (String × List QA)) :=
  match techsClean techs with
  | [] => .ok []
  | t :: ts =>
    match outcome with
    | .unavailable => .error .transport
    | .returned raw Option.none => .error (.malformed raw)
    | .returned _ (some (.dict kvs)) => validateAll kvs (t :: ts)
    | .returned _ (some v) => .error (nonDictLookup v t)


/-! ## The persistence gateway (`mongo.py`) -/

/-- Set a field of a document in place: replace the first occurrence of the
key, or append the pair when the key is absent (MongoDB `$set` on a
single-keyed document). -/
def setField : Doc → String → PyVal → Doc
  | [], k, v => [(k, v)]
  | (k', v') :: rest, k, v =>
    if k' = k then (k, v) :: rest else (k', v') :: setField rest k v

/-- Apply a `$set` update document field by field. -/
def applySet (d : Doc) (p : Doc) : Doc :=
  p.foldl (fun acc kv => setField acc kv.1 kv.2) d

/-- Remove every binding of a key (`p.pop(k, None)` on a dict). -/
def eraseKey (d : Doc) (k : String) : Doc :=
  d.filter (fun kv => kv.1 ≠ k)

/-- Python `d.setdefault(k, v)`: insert the binding only when the key is
absent. -/
def pySetdefault (d : Doc) (k : String) (v : PyVal) : Doc :=
  if (dget d k).isSome then d else d ++ [(k, v)]

/-- MongoDB `$push` into an array field: append to the existing array, or
create a one-element array when the field is absent. -/
def pushField (d : Doc) (k : String) (v : PyVal) : Doc :=
  match dget d k with
  | some (.list xs) => setField d k (.list (xs ++ [v]))
  | _ => setField d k (.list [v])

/-- Whether a stored document matches the filter `{"email": email}`. -/
def isEmailDoc (email : String) (d : Doc) : Bool :=
  match dget d "email" with
  | some (.str s) => s == email
  | _ => false

/-- The candidates collection: stored documents in insertion order, plus the
next `_id` the store will assign. -/
structure Store where
  docs : List Doc
  nextId : Nat

/-- `find_one({"email": email})`: the first matching document. -/
def findDoc (docs : List Doc) (email : String) : Option Doc :=
  docs.find? (isEmailDoc email)

/-- `update_one` on an existing document: rewrite the first match. -/
def updateFirst (docs : List Doc) (email : String) (f : Doc → Doc) : List Doc :=
  match docs with
  | [] => []
  | d :: rest =>
    if isEmailDoc email d then f d :: rest
    else d :: updateFirst rest email f

/-- `MongoDB.upsert_candidate` (mongo.py lines 63-71): drop any `answers`
key from the payload, stamp `updated_at`, then `$set` the result on the
matching document, or insert a fresh document (filter key, payload fields,
`$setOnInsert` `created_at`, generated `_id`) when none matches. -/
def upsert_candidate (st : Store) (email : String) (profile : Doc) (now : Nat) : Store :=
  let p := setField (eraseKey profile "answers") "updated_at" (.time now)
  match findDoc st.docs email with
  | some _ => { st with docs := updateFirst st.docs email (fun d => applySet d p) }
  | Option.none =>
    { docs := st.docs ++ [setField (applySet [("_id", .int st.nextId), ("email", .str email)] p)
                            "created_at" (.time now)],
      nextId := st.nextId + 1 }

/-- `MongoDB.add_answer` (mongo.py lines 73-80): default the record's
`timestamp`, then `$push` it onto `answers` and `$set` `updated_at` on the
matching document; with no match, insert a fresh document when
`upsert_candidate_if_missing` is true, else the update matches nothing. -/
def add_answer (st : Store) (email : String) (answer : Doc)
    (upsertIfMissing : Bool) (now : Nat) : Store :=
  let a := pySetdefault answer "timestamp" (.time now)
  match findDoc st.docs email with
  | some _ =>
    let f := fun d => setField (pushField d "answers" (.dict a)) "updated_at" (.time now)
    { st with docs := updateFirst st.docs email f }
  | Option.none =>
    if upsertIfMissing then
      { docs := st.docs ++ [[("_id", .int st.nextId), ("email", .str email),
                             ("answers", .list [.dict a]), ("updated_at", .time now)]],
        nextId := st.nextId + 1 }
    else st

/-- `_normalize_answer_input` (mongo.py lines 137-145): fill the six answer
fields via `setdefault`, honouring the `qid`/`q`/`response` aliases and
stamping `timestamp` when absent. -/
def normalize_answer_input (ans : Doc) (now : Nat) : Doc :=
  let a := ans
  let a := pySetdefault a "question_id" (pyOr (getOr a "qid") .none)
  let a := pySetdefault a "question" (pyOr (getOr a "q") (.str ""))
  let a := pySetdefault a "answer" (pyOr (getOr a "response") (.str ""))
  let a := pySetdefault a "tech" (pyOr (getOr a "tech") (.str "General"))
  let a := pySetdefault a "score" .none
  pySetdefault a "timestamp" (.time now)

/-- The `ans_doc` record built by `save_candidate_and_answers` from a
normalised answer (mongo.py lines 186-193). -/
def ansDocOf (raw : Doc) (now : Nat) : Doc :=
  let n := normalize_answer_input raw now
  [("question_id", getOr n "question_id"), ("question", getOr n "question"),
   ("answer", getOr n "answer"), ("tech", getOr n "tech"),
   ("score", getOr n "score"), ("timestamp", getOr n "timestamp")]


/-! ## The composite save (`mongo.py`, `save_candidate_and_answers`) -/

/-- One observable interaction with the MongoDB server: the connection
handshake of `MongoDB.connect` (`server_info()`), the `update_one` of
`upsert_candidate`, the `update_one` of `add_answer`, and the `find_one` of
`get_candidate_by_email`. -/
inductive StoreEvent where
  | connect
  | upsertCand (email : String)
  | pushAns (email : String)
  | findOne (email : String)
deriving DecidableEq, Repr

/-- The errors `save_candidate_and_answers` can raise: the `ConnectionError`
of a failed auto-init, the `ValueError` precondition failures raised before
the `try` block, an `AttributeError` from `.strip()` on a non-string field,
and the `RuntimeError` that wraps any exception raised inside the `try`
block. -/
inductive SaveError where
  | connection (msg : String)
  | validation (msg : String)
  | attrFail (msg : String)
  | wrapped (msg : String)
deriving DecidableEq, Repr

/-- The state surrounding the module-level gateway: whether `_db_wrapper`
is initialised, whether a connection attempt would succeed, the stored
collection, the log of interactions with the server, and an optional count
of data operations that will still succeed before the driver starts
raising (`Option.none` = the driver never fails). -/
structure World where
  initialized : Bool
  connectOk : Bool
  store : Store
  trace : List StoreEvent
  faultBudget : Option Nat

/-- Perform one driver round trip: record the event, spending one unit of
the fault budget; `Option.none` when the driver raises instead. -/
def World.op (w : World) (ev : StoreEvent) : Option World :=
  match w.faultBudget with
  | Option.none => some { w with trace := w.trace ++ [ev] }
  | some 0 => Option.none
  | some (n + 1) => some { w with trace := w.trace ++ [ev], faultBudget := some n }

/-- The email extraction of `save_candidate_and_answers` (mongo.py line 165):
`(candidate.get("email") or candidate.get("Email") or
candidate.get("email_address") or "")`. -/
def emailChain (candidate : Doc) : PyVal :=
  pyOr (getOr candidate "email")
    (pyOr (getOr candidate "Email") (pyOr (getOr candidate "email_address") (.str "")))

/-- Python `candidate.get(k1, candidate.get(k2, ""))`. -/
def getKeyed (candidate : Doc) (k1 k2 : String) : PyVal :=
  match dget candidate k1 with
  | some v => v
  | Option.none =>
    match dget candidate k2 with
    | some v => v
    | Option.none => .str ""

/-- Python `.strip()`: succeeds only on strings. -/
def pyStripVal : PyVal → Except String String
  | .str s => .ok (pyStrip s)
  | _ => .error "AttributeError: strip on non-string"

/-- The conservative profile built by `save_candidate_and_answers`
(mongo.py lines 170-177). -/
def buildProfile (candidate : Doc) (email : String) : Except String Doc :=
  match pyStripVal (getKeyed candidate "name" "full_name") with
  | .error e => .error e
  | .ok name =>
    match pyStripVal (getKeyed candidate "phone" "phone_number") with
    | .error e => .error e
    | .ok phone =>
      .ok [("name", .str name), ("email", .str email), ("phone", .str phone),
           ("position", getKeyed candidate "position" "desired_position"),
           ("meta", (dget candidate "meta").getD (.dict [("status", .str "in_progress")])),
           ("tech_stack", (dget candidate "tech_stack").getD (.list []))]

/-- The answer-push loop of `save_candidate_and_answers` (mongo.py lines
184-194): normalise and append each answer in input order, stopping at the
first driver failure; the Boolean records whether the loop completed. -/
def pushAnswersLoop (email : String) (now : Nat) : List Doc → World → Bool × World
  | [], w => (true, w)
  | raw :: rest, w =>
    match w.op (.pushAns email) with
    | Option.none => (false, w)
    | some w' =>
      pushAnswersLoop email now rest
        { w' with store := add_answer w'.store email (ansDocOf raw now) true now }

/-- The body of `save_candidate_and_answers` once the gateway is
initialised: validate the email, build the profile, upsert it, push the
answers, then re-read the document and return its `_id` as a string. -/
def saveBody (candidate : Doc) (answers_list : List Doc) (now : Nat) (w : World) :
    Except SaveError String × World :=
  match emailChain candidate with
  | .str s =>
    let email := pyStrip s
    if email = "" then
      (.error (.validation "Candidate must include an \x27email\x27 field to save to MongoDB."), w)
    else
      match buildProfile candidate email with
      | .error m => (.error (.attrFail m), w)
      | .ok profile =>
        match w.op (.upsertCand email) with
        | Option.none => (.error (.wrapped "driver error"), w)
        | some w1 =>
          let w1 := { w1 with store := upsert_candidate w1.store email profile now }
          match pushAnswersLoop email now answers_list w1 with
          | (false, w2) => (.error (.wrapped "driver error"), w2)
          | (true, w2) =>
            match w2.op (.findOne email) with
            | Option.none => (.error (.wrapped "driver error"), w2)
            | some w3 =>
              match findDoc w3.store.docs email with
              | Option.none =>
                (.error (.wrapped "Failed to retrieve candidate after save."), w3)
              | some doc => (.ok (pyStr ((dget doc "_id").getD .none)), w3)
  | _ => (.error (.attrFail "AttributeError: strip on non-string"), w)

/-- `save_candidate_and_answers` (mongo.py lines 148-204): lazily auto-init
the gateway (contacting the server) when it is not initialised, then run the
body. -/
def save_candidate_and_answers (candidate : Doc) (answers_list : List Doc)
    (now : Nat) (w : World) : Except SaveError String × World :=
  if w.initialized then saveBody candidate answers_list now w
  else if w.connectOk then
    saveBody candidate answers_list now
      { w with initialized := true, trace := w.trace ++ [.connect] }
  else
    (.error (.connection "MongoDB not initialized and auto-init failed"), w)

/-- The pure store effect of a successful composite save: upsert the
profile, then append each answer in input order. -/
def pureSave (st : Store) (email : String) (profile : Doc)
    (answers_list : List Doc) (now : Nat) : Store :=
  answers_list.foldl (fun s raw => add_answer s email (ansDocOf raw now) true now)
    (upsert_candidate st email profile now)


/-! ## Specification-side definitions used to state the claims -/

/-- The first of `keys` that is present in the dict, with its value. -/
def firstPresentKey (kvs : Doc) (keys : List String) : Option PyVal :=
  keys.findSome? (fun k => dget kvs k)

/-- The first of `keys` whose value in the dict is truthy, with its value. -/
def firstTruthyKey (kvs : Doc) (keys : List String) : Option PyVal :=
  keys.findSome? (fun k =>
    match dget kvs k with
    | some v => if pyTruthy v then some v else Option.none
    | Option.none => Option.none)

/-- A generic `get(k1) or ... or get(kn) or ""` chain, relating `qChain` and
`fChain` to `firstTruthyKey`. -/
def orChainKeys (kvs : Doc) : List String → PyVal
  | [] => .str ""
  | k :: ks => pyOr (getOr kvs k) (orChainKeys kvs ks)

/-- The claim's reading of the dict-element rule, followed literally:
extract the question from the first *present* key among `question`, `q`,
`prompt`; fall back to the first string-valued field only when *none is
present*, else stringify the whole mapping; extract the focus from the
first present of `ideal_answer_focus`, `focus`, defaulting to the empty
string and stringifying non-string focus values. -/
def specMapElemFirstPresent (kvs : Doc) : QA :=
  let q : String :=
    match firstPresentKey kvs ["question", "q", "prompt"] with
    | some v => pyStr v
    | Option.none =>
      match firstStringField kvs with
      | some s => s
      | Option.none => pyStr (.dict kvs)
  let f : String :=
    match firstPresentKey kvs ["ideal_answer_focus", "focus"] with
    | some v => pyStr v
    | Option.none => ""
  ⟨pyStrip q, pyStrip f⟩

/-- The amended dict-element rule: extraction keys on both chains are
consulted by *truthiness* of their values, not mere presence, and a falsy
non-string focus defaults to the empty string rather than being
stringified. -/
def specMapElemTruthy (kvs : Doc) : QA :=
  let q : String :=
    match firstTruthyKey kvs ["question", "q", "prompt"] with
    | some (.str s) => s
    | some v => pyStr v
    | Option.none =>
      match firstStringField kvs with
      | some s => s
      | Option.none => pyStr (.dict kvs)
  let f : String :=
    match firstTruthyKey kvs ["ideal_answer_focus", "focus"] with
    | some (.str s) => s
    | some v => pyStr v
    | Option.none => ""
  ⟨pyStrip q, pyStrip f⟩

/-- The question chain yields a string whenever it is truthy (the case in
which Python's `q.strip()` would not raise). -/
def qChainOk (kvs : Doc) : Bool :=
  match qChain kvs with
  | .str _ => true
  | v => !pyTruthy v

/-- Whether an `Except` computation succeeded. -/
def exOk {ε α : Type} : Except ε α → Bool
  | .ok _ => true
  | .error _ => false

/-- A technology whose parsed entry is a list with fewer than 3 valid
question candidates (the undersupply condition of the claims). -/
def undersupplyB (kvs : List (String × PyVal)) (tech : String) : Bool :=
  match dget kvs tech with
  | some (.list items) => decide ((items.filterMap validItem).length < 3)
  | _ => false

/-- The profile payload's `email` binding, when present, agrees with the
filter email. -/
def emailFieldOkB (profile : Doc) (email : String) : Bool :=
  match dget profile "email" with
  | Option.none => true
  | some (.str s) => s == email
  | some _ => false

/-- Repeatedly call `add_answer` (auto-create enabled, as by default), one
timestamped call per record. -/
def appendAnswers (st : Store) (email : String) : List (Doc × Nat) → Store
  | [] => st
  | (a, t) :: rest => appendAnswers (add_answer st email a true t) email rest

/-- Lookup of a technology's entry in a generated output mapping. -/
def olookup (out : List (String × List QA)) (tech : String) : Option (List QA) :=
  match out with
  | [] => Option.none
  | (t, qs) :: rest => if t = tech then some qs else olookup rest tech

/-! ## Lemmas about the extraction chains -/

theorem firstTruthyKey_cons (kvs : Doc) (k : String) (ks : List String) :
    firstTruthyKey kvs (k :: ks) =
      if pyTruthy (getOr kvs k) then some (getOr kvs k) else firstTruthyKey kvs ks := by
  cases hd : dget kvs k with
  | none =>
    have hg : getOr kvs k = .none := by simp [getOr, hd]
    simp [firstTruthyKey, List.findSome?, hd, hg, pyTruthy]
  | some v =>
    have hg : getOr kvs k = v := by simp [getOr, hd]
    cases hv : pyTruthy v with
    | true => simp [firstTruthyKey, List.findSome?, hd, hg, hv]
    | false => simp [firstTruthyKey, List.findSome?, hd, hg, hv]

theorem orChainKeys_spec (kvs : Doc) (ks : List String) :
    (pyTruthy (orChainKeys kvs ks) = true ∧
      firstTruthyKey kvs ks = some (orChainKeys kvs ks)) ∨
    (orChainKeys kvs ks = .str "" ∧ firstTruthyKey kvs ks = Option.none) := by
  induction ks with
  | nil => exact Or.inr ⟨rfl, rfl⟩
  | cons k ks ih =>
    rw [orChainKeys, firstTruthyKey_cons]
    cases h : pyTruthy (getOr kvs k) with
    | true =>
      left
      constructor
      · simp [pyOr, h]
      · simp [pyOr, h]
    | false =>
      have hOr : pyOr (getOr kvs k) (orChainKeys kvs ks) = orChainKeys kvs ks := by
        simp [pyOr, h]
      rw [hOr]
      simpa [h] using ih

theorem focusOf_spec (kvs : Doc) :
    focusOf kvs =
      match firstTruthyKey kvs ["ideal_answer_focus", "focus"] with
      | some (.str s) => s
      | some v => pyStr v
      | Option.none => "" := by
  have hEq : fChain kvs = orChainKeys kvs ["ideal_answer_focus", "focus"] := rfl
  rcases orChainKeys_spec kvs ["ideal_answer_focus", "focus"] with ⟨ht, hk⟩ | ⟨hc, hk⟩
  · rw [hk, focusOf, hEq]
    cases orChainKeys kvs ["ideal_answer_focus", "focus"] <;> rfl
  · rw [hk, focusOf, hEq, hc]

theorem questionOf_spec (kvs : Doc) (hok : qChainOk kvs = true) :
    questionOf kvs = .ok
      (match firstTruthyKey kvs ["question", "q", "prompt"] with
       | some (.str s) => s
       | some v => pyStr v
       | Option.none =>
         match firstStringField kvs with
         | some s => s
         | Option.none => pyStr (.dict kvs)) := by
  have hspec :
      (pyTruthy (qChain kvs) = true ∧
        firstTruthyKey kvs ["question", "q", "prompt"] = some (qChain kvs)) ∨
      (qChain kvs = .str "" ∧
        firstTruthyKey kvs ["question", "q", "prompt"] = Option.none) :=
    orChainKeys_spec kvs ["question", "q", "prompt"]
  rw [qChainOk] at hok
  rw [questionOf]
  rcases hspec with ⟨ht, hk⟩ | ⟨hc, hk⟩
  · rw [hk]
    generalize hq : qChain kvs = c
    rw [hq] at ht hok
    cases c with
    | str s => rw [if_pos ht]
    | int n => simp [ht] at hok
    | bool b => simp [ht] at hok
    | none => simp [ht] at hok
    | time t => simp [ht] at hok
    | list xs => simp [ht] at hok
    | dict d => simp [ht] at hok
  · rw [hk, hc]
    rfl

/-- C1: for a mapping element of a technology's list, the normaliser's
question/focus extraction follows the amended rule `specMapElemTruthy`:
the `question`/`q`/`prompt` and `ideal_answer_focus`/`focus` chains are
consulted by truthiness of their values (not mere key presence), falling
back to the first string-valued field (else the stringified mapping) only
when no chain value is truthy, and stringifying only truthy non-string
focus values.  Stated under the hypothesis that a truthy question value is
a string (otherwise the source raises `AttributeError`). -/
theorem c1_dict_element_normalisation (kvs : Doc) (hok : qChainOk kvs = true) :
    normElem (.dict kvs) = .ok (specMapElemTruthy kvs) := by
  show normItem kvs = _
  rw [normItem, questionOf_spec kvs hok, specMapElemTruthy, focusOf_spec]

theorem c1_dict_element_normalisation_witness :
    qChainOk [("q", PyVal.str "Q1"), ("focus", PyVal.int 7)] = true ∧
    normElem (.dict [("q", PyVal.str "Q1"), ("focus", PyVal.int 7)]) =
      .ok (specMapElemTruthy [("q", PyVal.str "Q1"), ("focus", PyVal.int 7)]) :=
  ⟨rfl, c1_dict_element_normalisation _ rfl⟩

/-- C1 as stated is false: on `{"question": "", "q": "Real"}` the key
`question` is present, so the claimed first-present-key rule extracts the
empty question, but the code's `or` chain skips the falsy empty string and
extracts `"Real"` from `q`. -/
theorem c1_counterexample :
    normElem (.dict [("question", PyVal.str ""), ("q", PyVal.str "Real")]) =
      .ok ⟨"Real", ""⟩ ∧
    specMapElemFirstPresent [("question", PyVal.str ""), ("q", PyVal.str "Real")] =
      ⟨"", ""⟩ ∧
    (⟨"Real", ""⟩ : QA) ≠ (⟨"", ""⟩ : QA) :=
  ⟨rfl, rfl, by decide⟩

/-! ## Lemmas about the server-side validator -/

theorem validateTech_ok (kvs : List (String × PyVal)) (t : String) (e : String × List QA)
    (h : validateTech kvs t = .ok e) :
    ∃ items, dget kvs t = some (.list items) ∧
      ¬ (items.filterMap validItem).length < 3 ∧
      e = (t, (items.filterMap validItem).take 5) := by
  simp only [validateTech] at h
  split at h
  · next items heq =>
    split at h
    · cases h
    · next hl => exact ⟨items, heq, hl, (Except.ok.inj h).symm⟩
  · cases h

theorem validateAll_ok_mem (kvs : List (String × PyVal)) (ts : List String)
    (out : List (String × List QA)) (h : validateAll kvs ts = .ok out) :
    ∀ tech ∈ ts, ∃ qs, olookup out tech = some qs ∧ validateTech kvs tech = .ok (tech, qs) := by
  induction ts generalizing out with
  | nil => intro tech htech; cases htech
  | cons t ts ih =>
    intro tech htech
    rw [validateAll] at h
    cases hv : validateTech kvs t with
    | error e => rw [hv] at h; cases h
    | ok entry =>
      rw [hv] at h
      cases hrest : validateAll kvs ts with
      | error e => rw [hrest] at h; cases h
      | ok rest =>
        rw [hrest] at h
        have hout : entry :: rest = out := Except.ok.inj h
        obtain ⟨items, hitems, hlen, hentry⟩ := validateTech_ok kvs t entry hv
        rcases List.mem_cons.mp htech with heq | hmem
        · subst heq
          refine ⟨(items.filterMap validItem).take 5, ?_, ?_⟩
          · rw [← hout, hentry, olookup]
            simp
          · rw [hv, hentry]
        · by_cases hteq : tech = t
          · subst hteq
            refine ⟨(items.filterMap validItem).take 5, ?_, ?_⟩
            · rw [← hout, hentry, olookup]
              simp
            · rw [hv, hentry]
          · obtain ⟨qs, holo, hvt⟩ := ih rest hrest tech hmem
            refine ⟨qs, ?_, hvt⟩
            rw [← hout, hentry]
            simp only [olookup]
            rw [if_neg (fun hh => hteq (Eq.symm hh))]
            exact holo

theorem undersupply_validateTech (kvs : List (String × PyVal)) (tech : String)
    (h : undersupplyB kvs tech = true) :
    validateTech kvs tech = .error (.insufficient tech) := by
  simp only [undersupplyB] at h
  simp only [validateTech]
  split at h
  · next items heq =>
    simp only [decide_eq_true_eq] at h
    simp [heq, h]
  · cases h

theorem validateAll_error_at (kvs : List (String × PyVal)) (e : GenError)
    (pre : List String) (tech : String) (post : List String)
    (hpre : ∀ t ∈ pre, exOk (validateTech kvs t) = true)
    (herr : validateTech kvs tech = .error e) :
    validateAll kvs (pre ++ tech :: post) = .error e := by
  induction pre with
  | nil => simp [validateAll, herr]
  | cons t pre ih =>
    have ht := hpre t (List.mem_cons_self t pre)
    cases hv : validateTech kvs t with
    | error e2 => rw [hv] at ht; cases ht
    | ok entry =>
      rw [List.cons_append, validateAll, hv,
        ih (fun t' ht' => hpre t' (List.mem_cons_of_mem _ ht'))]

theorem generate_questions_dict (techs : List String) (raw : String)
    (kvs : List (String × PyVal)) (h : techsClean techs ≠ []) :
    generate_questions techs (.returned raw (some (.dict kvs))) =
      validateAll kvs (techsClean techs) := by
  cases hT : techsClean techs with
  | nil => exact absurd hT h
  | cons t ts => rw [generate_questions, hT]

theorem absent_validateTech (kvs : List (String × PyVal)) (tech : String)
    (h : dget kvs tech = Option.none) :
    validateTech kvs tech = .error (.missingTech tech) := by
  simp [validateTech, h]

theorem filterMap_validItem_strings (ss : List String) :
    (ss.map PyVal.str).filterMap validItem = [] := by
  induction ss with
  | nil => rfl
  | cons s ss ih => simp [List.filterMap_cons, validItem, ih]

/-- C4: whenever `generate_questions` succeeds and a requested technology's
parsed entry is a list with more than 5 valid question candidates, the
output entry for that technology is exactly the first 5 candidates, in
their original order. -/
theorem c4_truncation_first_five (techs : List String) (raw : String)
    (kvs : List (String × PyVal)) (out : List (String × List QA))
    (tech : String) (items : List PyVal)
    (hok : generate_questions techs (.returned raw (some (.dict kvs))) = .ok out)
    (hmem : tech ∈ techsClean techs)
    (hentry : dget kvs tech = some (.list items))
    (hlen : 5 < (items.filterMap validItem).length) :
    olookup out tech = some ((items.filterMap validItem).take 5) ∧
    ((items.filterMap validItem).take 5).length = 5 := by
  have hne : techsClean techs ≠ [] := by
    intro hnil; rw [hnil] at hmem; cases hmem
  rw [generate_questions_dict techs raw kvs hne] at hok
  obtain ⟨qs, holo, hvt⟩ := validateAll_ok_mem kvs _ out hok tech hmem
  obtain ⟨items2, hitems2, _, he⟩ := validateTech_ok kvs tech _ hvt
  rw [hentry] at hitems2
  injection hitems2 with h1
  injection h1 with h2
  subst h2
  injection he with h3 h4
  subst h4
  refine ⟨holo, ?_⟩
  rw [List.length_take]
  exact Nat.min_eq_left (Nat.le_of_lt hlen)

theorem c4_truncation_first_five_witness :
    olookup [("A", [(⟨"Q1", ""⟩ : QA), ⟨"Q2", ""⟩, ⟨"Q3", ""⟩, ⟨"Q4", ""⟩, ⟨"Q5", ""⟩])] "A" =
      some (([.dict [("question", PyVal.str "Q1")], .dict [("question", PyVal.str "Q2")],
              .dict [("question", PyVal.str "Q3")], .dict [("question", PyVal.str "Q4")],
              .dict [("question", PyVal.str "Q5")], .dict [("question", PyVal.str "Q6")]
             ].filterMap validItem).take 5) ∧
    (([.dict [("question", PyVal.str "Q1")], .dict [("question", PyVal.str "Q2")],
       .dict [("question", PyVal.str "Q3")], .dict [("question", PyVal.str "Q4")],
       .dict [("question", PyVal.str "Q5")], .dict [("question", PyVal.str "Q6")]
      ].filterMap validItem).take 5).length = 5 :=
  c4_truncation_first_five ["A"] ""
    [("A", .list [.dict [("question", PyVal.str "Q1")], .dict [("question", PyVal.str "Q2")],
                  .dict [("question", PyVal.str "Q3")], .dict [("question", PyVal.str "Q4")],
                  .dict [("question", PyVal.str "Q5")], .dict [("question", PyVal.str "Q6")]])]
    [("A", [⟨"Q1", ""⟩, ⟨"Q2", ""⟩, ⟨"Q3", ""⟩, ⟨"Q4", ""⟩, ⟨"Q5", ""⟩])] "A"
    [.dict [("question", PyVal.str "Q1")], .dict [("question", PyVal.str "Q2")],
     .dict [("question", PyVal.str "Q3")], .dict [("question", PyVal.str "Q4")],
     .dict [("question", PyVal.str "Q5")], .dict [("question", PyVal.str "Q6")]]
    rfl (by decide) rfl (by decide)

/-- C10: in `generate_questions`, only list elements that are dicts
containing a `question` key count toward a technology's question total:
plain-string elements yield no record, dicts without a `question` key
(e.g. using `q`/`prompt`) yield no record, and an entry made of 3 or more
plain strings still fails the minimum-of-3 check with an
insufficient-questions error for that technology. -/
theorem c10_only_question_dicts_count :
    (∀ s : String, validItem (.str s) = Option.none) ∧
    (∀ kvs : Doc, dget kvs "question" = Option.none → validItem (.dict kvs) = Option.none) ∧
    (∀ (tech raw : String) (ss : List String),
      techsClean [tech] = [tech] → 3 ≤ ss.length →
      generate_questions [tech]
        (.returned raw (some (.dict [(tech, .list (ss.map PyVal.str))]))) =
        .error (.insufficient tech)) := by
  refine ⟨fun s => rfl, fun kvs h => ?_, fun tech raw ss hclean hlen => ?_⟩
  · simp only [validItem]
    rw [h]
  · have hne : techsClean [tech] ≠ [] := by rw [hclean]; simp
    rw [generate_questions_dict _ raw _ hne, hclean]
    have hv : validateTech [(tech, .list (ss.map PyVal.str))] tech =
        .error (.insufficient tech) := by
      have hd : dget [(tech, PyVal.list (ss.map PyVal.str))] tech =
          some (.list (ss.map PyVal.str)) := by simp [dget]
      simp only [validateTech, hd]
      rw [filterMap_validItem_strings]
      rfl
    simp only [validateAll, hv]

theorem c10_only_question_dicts_count_witness :
    validItem (.str "What is a decorator?") = Option.none ∧
    validItem (.dict [("q", PyVal.str "Q"), ("prompt", PyVal.str "P")]) = Option.none ∧
    generate_questions ["Python"]
      (.returned "" (some (.dict [("Python", .list (["a", "b", "c"].map PyVal.str))]))) =
      .error (.insufficient "Python") :=
  ⟨c10_only_question_dicts_count.1 "What is a decorator?",
   c10_only_question_dicts_count.2.1 [("q", PyVal.str "Q"), ("prompt", PyVal.str "P")] rfl,
   c10_only_question_dicts_count.2.2 "Python" "" ["a", "b", "c"] rfl (by decide)⟩

/-- C2 (amended): whenever a requested technology's parsed entry is a list
with fewer than 3 valid question candidates, `generate_questions` never
returns an output mapping; and the reported error is the
insufficient-questions error naming that technology whenever every
technology occurring before it in the cleaned request list validates
successfully. -/
theorem c2_undersupply_failure (techs : List String) (raw : String)
    (kvs : List (String × PyVal)) (tech : String)
    (hmem : tech ∈ techsClean techs)
    (hunder : undersupplyB kvs tech = true) :
    (∀ out, generate_questions techs (.returned raw (some (.dict kvs))) ≠ .ok out) ∧
    (∀ pre post, techsClean techs = pre ++ tech :: post →
      (∀ t ∈ pre, exOk (validateTech kvs t) = true) →
      generate_questions techs (.returned raw (some (.dict kvs))) =
        .error (.insufficient tech)) := by
  have hne : techsClean techs ≠ [] := by
    intro hnil; rw [hnil] at hmem; cases hmem
  have hgen := generate_questions_dict techs raw kvs hne
  constructor
  · intro out hok
    rw [hgen] at hok
    obtain ⟨qs, _, hvt⟩ := validateAll_ok_mem kvs _ out hok tech hmem
    rw [undersupply_validateTech kvs tech hunder] at hvt
    cases hvt
  · intro pre post hsplit hpre
    rw [hgen, hsplit]
    exact validateAll_error_at kvs _ pre tech post hpre
      (undersupply_validateTech kvs tech hunder)

theorem c2_undersupply_failure_witness :
    (∀ out, generate_questions ["A"] (.returned "" (some (.dict [("A", PyVal.list [])]))) ≠
      .ok out) ∧
    (∀ pre post, techsClean ["A"] = pre ++ "A" :: post →
      (∀ t ∈ pre, exOk (validateTech [("A", PyVal.list [])] t) = true) →
      generate_questions ["A"] (.returned "" (some (.dict [("A", PyVal.list [])]))) =
        .error (.insufficient "A")) :=
  c2_undersupply_failure ["A"] "" [("A", PyVal.list [])] "A" (by decide) rfl

/-- C2 is refuted as stated: on request `["A", "B"]` with parsed response
`{"B": []}`, technology `B` undersupplies (0 valid candidates), yet
generation fails with the missing-key error for `A`, not with an
insufficient-questions error naming `B`. -/
theorem c2_counterexample :
    generate_questions ["A", "B"] (.returned "" (some (.dict [("B", PyVal.list [])]))) =
      .error (.missingTech "A") ∧
    "B" ∈ techsClean ["A", "B"] ∧
    undersupplyB [("B", PyVal.list [])] "B" = true ∧
    GenError.missingTech "A" ≠ GenError.insufficient "B" :=
  ⟨rfl, by decide, rfl, by decide⟩

/-- C3 (amended): whenever a requested technology is absent from the parsed
response, `generate_questions` never returns an output mapping; the
reported error is the missing-technology error naming that technology
whenever every technology occurring before it in the cleaned request list
validates successfully; and the missing-technology failure kind is distinct
from the transport and JSON-parse failure kinds. -/
theorem c3_missing_tech_failure (techs : List String) (raw : String)
    (kvs : List (String × PyVal)) (tech : String)
    (hmem : tech ∈ techsClean techs)
    (habs : dget kvs tech = Option.none) :
    (∀ out, generate_questions techs (.returned raw (some (.dict kvs))) ≠ .ok out) ∧
    (∀ pre post, techsClean techs = pre ++ tech :: post →
      (∀ t ∈ pre, exOk (validateTech kvs t) = true) →
      generate_questions techs (.returned raw (some (.dict kvs))) =
        .error (.missingTech tech)) ∧
    (∀ t r : String, GenError.missingTech t ≠ GenError.transport ∧
      GenError.missingTech t ≠ GenError.malformed r) := by
  have hne : techsClean techs ≠ [] := by
    intro hnil; rw [hnil] at hmem; cases hmem
  have hgen := generate_questions_dict techs raw kvs hne
  refine ⟨?_, ?_, fun t r => ⟨fun h => GenError.noConfusion h, fun h => GenError.noConfusion h⟩⟩
  · intro out hok
    rw [hgen] at hok
    obtain ⟨qs, _, hvt⟩ := validateAll_ok_mem kvs _ out hok tech hmem
    rw [absent_validateTech kvs tech habs] at hvt
    cases hvt
  · intro pre post hsplit hpre
    rw [hgen, hsplit]
    exact validateAll_error_at kvs _ pre tech post hpre
      (absent_validateTech kvs tech habs)

theorem c3_missing_tech_failure_witness :
    (∀ out, generate_questions ["A"] (.returned "" (some (.dict [("B", PyVal.list [])]))) ≠
      .ok out) ∧
    (∀ pre post, techsClean ["A"] = pre ++ "A" :: post →
      (∀ t ∈ pre, exOk (validateTech [("B", PyVal.list [])] t) = true) →
      generate_questions ["A"] (.returned "" (some (.dict [("B", PyVal.list [])]))) =
        .error (.missingTech "A")) ∧
    (∀ t r : String, GenError.missingTech t ≠ GenError.transport ∧
      GenError.missingTech t ≠ GenError.malformed r) :=
  c3_missing_tech_failure ["A"] "" [("B", PyVal.list [])] "A" (by decide) rfl

/-- C3 is refuted as stated: on request `["A", "B"]` with parsed response
`{"A": []}`, technology `B` is absent from the response, yet generation
fails with the insufficient-questions error for `A`, not with a
missing-technology error naming `B`. -/
theorem c3_counterexample :
    generate_questions ["A", "B"] (.returned "" (some (.dict [("A", PyVal.list [])]))) =
      .error (.insufficient "A") ∧
    "B" ∈ techsClean ["A", "B"] ∧
    dget [("A", PyVal.list [])] "B" = Option.none ∧
    GenError.insufficient "A" ≠ GenError.missingTech "B" :=
  ⟨rfl, by decide, rfl, by decide⟩

/-! ## Lemmas about documents and the store -/

theorem dget_setField_self (d : Doc) (k : String) (v : PyVal) :
    dget (setField d k v) k = some v := by
  induction d with
  | nil => simp [setField, dget]
  | cons kv rest ih =>
    obtain ⟨k', v'⟩ := kv
    by_cases h : k' = k
    · simp [setField, h, dget]
    · simp [setField, h, dget, ih]

theorem dget_setField_ne (d : Doc) (k k2 : String) (v : PyVal) (h : k ≠ k2) :
    dget (setField d k v) k2 = dget d k2 := by
  induction d with
  | nil => simp [setField, dget, h]
  | cons kv rest ih =>
    obtain ⟨k', v'⟩ := kv
    by_cases h2 : k' = k
    · subst h2
      simp [setField, dget, h]
    · simp [setField, h2, dget, ih]

theorem setField_cons_self (k : String) (v' v : PyVal) (rest : Doc) :
    setField ((k, v') :: rest) k v = (k, v) :: rest := by simp [setField]

theorem setField_cons_ne (k' k : String) (v' v : PyVal) (rest : Doc) (h : k' ≠ k) :
    setField ((k', v') :: rest) k v = (k', v') :: setField rest k v := by
  simp [setField, h]

theorem eraseKey_cons_self (k : String) (v' : PyVal) (rest : Doc) :
    eraseKey ((k, v') :: rest) k = eraseKey rest k := by simp [eraseKey]

theorem eraseKey_cons_ne (k' k : String) (v' : PyVal) (rest : Doc) (h : k' ≠ k) :
    eraseKey ((k', v') :: rest) k = (k', v') :: eraseKey rest k := by
  simp [eraseKey, List.filter_cons, h]

theorem keys_eraseKey_subset (d : Doc) (k : String) :
    ∀ x, x ∈ (eraseKey d k).map Prod.fst → x ∈ d.map Prod.fst := by
  intro x hx
  obtain ⟨p, hp, hpx⟩ := List.mem_map.mp hx
  exact List.mem_map.mpr ⟨p, List.mem_of_mem_filter hp, hpx⟩

theorem dget_eraseKey_self (d : Doc) (k : String) :
    dget (eraseKey d k) k = Option.none := by
  induction d with
  | nil => rfl
  | cons kv rest ih =>
    obtain ⟨k', v'⟩ := kv
    by_cases h : k' = k
    · subst h
      rw [eraseKey_cons_self]
      exact ih
    · rw [eraseKey_cons_ne k' k v' rest h]
      simpa [dget, h] using ih

theorem dget_eraseKey_ne (d : Doc) (k k2 : String) (h : k ≠ k2) :
    dget (eraseKey d k) k2 = dget d k2 := by
  induction d with
  | nil => rfl
  | cons kv rest ih =>
    obtain ⟨k', v'⟩ := kv
    by_cases h2 : k' = k
    · subst h2
      rw [eraseKey_cons_self]
      have hne : ¬ k' = k2 := fun hh => h hh
      simpa [dget, hne] using ih
    · rw [eraseKey_cons_ne k' k v' rest h2]
      by_cases h3 : k' = k2
      · simp [dget, h3]
      · simpa [dget, h3] using ih

theorem dget_none_of_not_mem_keys (p : Doc) (k : String)
    (h : k ∉ p.map Prod.fst) :
    dget p k = Option.none := by
  induction p with
  | nil => rfl
  | cons kv rest ih =>
    obtain ⟨k', v'⟩ := kv
    simp only [List.map_cons, List.mem_cons] at h
    push_neg at h
    have hne : ¬ k' = k := fun hh => h.1 hh.symm
    simp [dget, hne, ih h.2]

theorem dget_applySet (d p : Doc) (k : String) (hnd : (p.map Prod.fst).Nodup) :
    dget (applySet d p) k =
      match dget p k with
      | some v => some v
      | Option.none => dget d k := by
  induction p generalizing d with
  | nil => rfl
  | cons kv p ih =>
    obtain ⟨k1, v1⟩ := kv
    simp only [List.map_cons, List.nodup_cons] at hnd
    have hstep : applySet d ((k1, v1) :: p) = applySet (setField d k1 v1) p := rfl
    rw [hstep, ih _ hnd.2]
    by_cases h : k1 = k
    · subst h
      have hp : dget p k1 = Option.none := dget_none_of_not_mem_keys p k1 hnd.1
      simp [dget, hp, dget_setField_self]
    · simp [dget, h, dget_setField_ne d k1 k v1 h]

theorem mem_keys_setField (d : Doc) (k k2 : String) (v : PyVal) :
    k2 ∈ (setField d k v).map Prod.fst ↔ k2 ∈ d.map Prod.fst ∨ k2 = k := by
  induction d with
  | nil => simp [setField]
  | cons kv rest ih =>
    obtain ⟨k', v'⟩ := kv
    by_cases h : k' = k
    · subst h
      rw [setField_cons_self]
      simp only [List.map_cons, List.mem_cons]
      tauto
    · rw [setField_cons_ne k' k v' v rest h]
      simp only [List.map_cons, List.mem_cons, ih]
      tauto

theorem nodup_keys_setField (d : Doc) (k : String) (v : PyVal)
    (h : (d.map Prod.fst).Nodup) :
    ((setField d k v).map Prod.fst).Nodup := by
  induction d with
  | nil => simp [setField]
  | cons kv rest ih =>
    obtain ⟨k', v'⟩ := kv
    simp only [List.map_cons, List.nodup_cons] at h
    by_cases hk : k' = k
    · subst hk
      rw [setField_cons_self]
      simp only [List.map_cons, List.nodup_cons]
      exact ⟨h.1, h.2⟩
    · rw [setField_cons_ne k' k v' v rest hk]
      simp only [List.map_cons, List.nodup_cons]
      refine ⟨?_, ih h.2⟩
      rw [mem_keys_setField]
      rintro (hm | hm)
      · exact h.1 hm
      · exact hk hm

theorem nodup_keys_eraseKey (d : Doc) (k : String)
    (h : (d.map Prod.fst).Nodup) :
    ((eraseKey d k).map Prod.fst).Nodup := by
  induction d with
  | nil => simp [eraseKey]
  | cons kv rest ih =>
    obtain ⟨k', v'⟩ := kv
    simp only [List.map_cons, List.nodup_cons] at h
    by_cases hk : k' = k
    · subst hk
      rw [eraseKey_cons_self]
      exact ih h.2
    · rw [eraseKey_cons_ne k' k v' rest hk]
      simp only [List.map_cons, List.nodup_cons]
      exact ⟨fun hm => h.1 (keys_eraseKey_subset rest k k' hm), ih h.2⟩

theorem findDoc_isEmail (docs : List Doc) (email : String) (d : Doc)
    (h : findDoc docs email = some d) : isEmailDoc email d = true :=
  List.find?_some h

theorem findDoc_updateFirst (docs : List Doc) (email : String) (f : Doc → Doc)
    (hf : ∀ d, isEmailDoc email d = true → isEmailDoc email (f d) = true) :
    findDoc (updateFirst docs email f) email = (findDoc docs email).map f := by
  induction docs with
  | nil => rfl
  | cons d rest ih =>
    by_cases h : isEmailDoc email d = true
    · simp only [updateFirst, if_pos h]
      rw [findDoc, List.find?_cons_of_pos _ (hf d h),
        findDoc, List.find?_cons_of_pos _ h]
      rfl
    · simp only [updateFirst, if_neg h]
      rw [findDoc, List.find?_cons_of_neg _ h, findDoc, List.find?_cons_of_neg _ h]
      exact ih

theorem findDoc_append_one (docs : List Doc) (email : String) (nd : Doc)
    (h : findDoc docs email = Option.none) :
    findDoc (docs ++ [nd]) email =
      if isEmailDoc email nd then some nd else Option.none := by
  induction docs with
  | nil =>
    by_cases hp : isEmailDoc email nd = true
    · rw [List.nil_append, findDoc, List.find?_cons_of_pos _ hp, if_pos hp]
    · rw [List.nil_append, findDoc, List.find?_cons_of_neg _ hp, if_neg hp]
      rfl
  | cons d rest ih =>
    by_cases hp : isEmailDoc email d = true
    · rw [findDoc, List.find?_cons_of_pos _ hp] at h
      cases h
    · rw [findDoc, List.find?_cons_of_neg _ hp] at h
      rw [List.cons_append, findDoc, List.find?_cons_of_neg _ hp]
      exact ih h

theorem emailFieldOk_cases (profile : Doc) (email : String)
    (h : emailFieldOkB profile email = true) :
    dget profile "email" = Option.none ∨ dget profile "email" = some (.str email) := by
  rw [emailFieldOkB] at h
  cases he : dget profile "email" with
  | none => exact Or.inl rfl
  | some v =>
    rw [he] at h
    cases v with
    | str s => exact Or.inr (by rw [eq_of_beq h])
    | int n => cases h
    | bool b => cases h
    | none => cases h
    | time t => cases h
    | list xs => cases h
    | dict kv => cases h

theorem upsert_payload_facts (profile : Doc) (now : Nat)
    (hnd : (profile.map Prod.fst).Nodup) :
    ((setField (eraseKey profile "answers") "updated_at" (.time now)).map Prod.fst).Nodup ∧
    dget (setField (eraseKey profile "answers") "updated_at" (.time now)) "answers" =
      Option.none ∧
    dget (setField (eraseKey profile "answers") "updated_at" (.time now)) "updated_at" =
      some (.time now) ∧
    dget (setField (eraseKey profile "answers") "updated_at" (.time now)) "created_at" =
      dget profile "created_at" ∧
    dget (setField (eraseKey profile "answers") "updated_at" (.time now)) "email" =
      dget profile "email" := by
  refine ⟨nodup_keys_setField _ _ _ (nodup_keys_eraseKey _ _ hnd), ?_, ?_, ?_, ?_⟩
  · rw [dget_setField_ne _ _ _ _ (by decide)]
    exact dget_eraseKey_self _ _
  · exact dget_setField_self _ _ _
  · rw [dget_setField_ne _ _ _ _ (by decide)]
    exact dget_eraseKey_ne _ _ _ (by decide)
  · rw [dget_setField_ne _ _ _ _ (by decide)]
    exact dget_eraseKey_ne _ _ _ (by decide)

theorem upsert_candidate_spec (st : Store) (email : String) (profile : Doc) (now : Nat)
    (hnd : (profile.map Prod.fst).Nodup)
    (hcompat : emailFieldOkB profile email = true) :
    ∃ d', findDoc (upsert_candidate st email profile now).docs email = some d' ∧
      dget d' "updated_at" = some (.time now) ∧
      (dget profile "created_at" = Option.none →
        dget d' "created_at" =
          (match findDoc st.docs email with
           | some d => dget d "created_at"
           | Option.none => some (.time now))) ∧
      dget d' "answers" =
        (match findDoc st.docs email with
         | some d => dget d "answers"
         | Option.none => Option.none) := by
  obtain ⟨hpnd, hpan, hpup, hpca, hpe⟩ := upsert_payload_facts profile now hnd
  have hec := emailFieldOk_cases profile email hcompat
  cases hfd : findDoc st.docs email with
  | some d =>
    have hf : ∀ d0, isEmailDoc email d0 = true →
        isEmailDoc email
          (applySet d0 (setField (eraseKey profile "answers") "updated_at" (.time now))) =
          true := by
      intro d0 hd0
      rw [isEmailDoc, dget_applySet _ _ _ hpnd, hpe]
      rcases hec with he | he
      · rw [he]
        rw [isEmailDoc] at hd0
        exact hd0
      · rw [he]
        simp
    have hup : (upsert_candidate st email profile now).docs =
        updateFirst st.docs email
          (fun d0 => applySet d0 (setField (eraseKey profile "answers") "updated_at" (.time now))) := by
      simp only [upsert_candidate, hfd]
    refine ⟨applySet d (setField (eraseKey profile "answers") "updated_at" (.time now)),
      ?_, ?_, ?_, ?_⟩
    · rw [hup, findDoc_updateFirst st.docs email _ hf, hfd]
      rfl
    · rw [dget_applySet _ _ _ hpnd, hpup]
    · intro hca
      rw [dget_applySet _ _ _ hpnd, hpca, hca]
    · rw [dget_applySet _ _ _ hpnd, hpan]
  | none =>
    have hnd' : dget
        (setField
          (applySet [("_id", .int st.nextId), ("email", .str email)]
            (setField (eraseKey profile "answers") "updated_at" (.time now)))
          "created_at" (.time now)) "email" = some (.str email) := by
      rw [dget_setField_ne _ _ _ _ (by decide), dget_applySet _ _ _ hpnd, hpe]
      rcases hec with he | he
      · rw [he]
        rfl
      · rw [he]
    have hem : isEmailDoc email
        (setField
          (applySet [("_id", .int st.nextId), ("email", .str email)]
            (setField (eraseKey profile "answers") "updated_at" (.time now)))
          "created_at" (.time now)) = true := by
      rw [isEmailDoc, hnd']
      simp
    have hup : (upsert_candidate st email profile now).docs =
        st.docs ++
          [setField
            (applySet [("_id", .int st.nextId), ("email", .str email)]
              (setField (eraseKey profile "answers") "updated_at" (.time now)))
            "created_at" (.time now)] := by
      simp only [upsert_candidate, hfd]
    refine ⟨setField
        (applySet [("_id", .int st.nextId), ("email", .str email)]
          (setField (eraseKey profile "answers") "updated_at" (.time now)))
        "created_at" (.time now), ?_, ?_, ?_, ?_⟩
    · rw [hup, findDoc_append_one st.docs email _ hfd, if_pos hem]
    · rw [dget_setField_ne _ _ _ _ (by decide), dget_applySet _ _ _ hpnd, hpup]
    · intro hca
      rw [dget_setField_self]
    · rw [dget_setField_ne _ _ _ _ (by decide), dget_applySet _ _ _ hpnd, hpan]
      rfl

/-- C5 (amended): `upsert_candidate` never touches the `answers` field (the
payload's `answers` key is dropped before the `$set`), and, provided the
payload itself carries no `created_at` key, never changes `created_at` on an
existing document; calling it twice with the identical payload leaves
`created_at` and `answers` unchanged while `updated_at` advances from the
first call's instant to the second's. -/
theorem c5_upsert_frame (st : Store) (email : String) (profile : Doc) (t1 t2 : Nat)
    (hnd : (profile.map Prod.fst).Nodup)
    (hcompat : emailFieldOkB profile email = true)
    (hca : dget profile "created_at" = Option.none)
    (ht : t1 < t2) :
    (∀ d, findDoc st.docs email = some d →
      ∃ d1, findDoc (upsert_candidate st email profile t1).docs email = some d1 ∧
        dget d1 "answers" = dget d "answers" ∧
        dget d1 "created_at" = dget d "created_at") ∧
    (∃ d1 d2,
      findDoc (upsert_candidate st email profile t1).docs email = some d1 ∧
      findDoc (upsert_candidate (upsert_candidate st email profile t1) email profile t2).docs
        email = some d2 ∧
      dget d2 "created_at" = dget d1 "created_at" ∧
      dget d2 "answers" = dget d1 "answers" ∧
      dget d1 "updated_at" = some (.time t1) ∧
      dget d2 "updated_at" = some (.time t2) ∧ t1 < t2) := by
  constructor
  · intro d hd
    obtain ⟨d1, hfind, hup, hcareq, hans⟩ := upsert_candidate_spec st email profile t1 hnd hcompat
    refine ⟨d1, hfind, ?_, ?_⟩
    · rw [hans, hd]
    · rw [hcareq hca, hd]
  · obtain ⟨d1, hfind1, hup1, hca1, hans1⟩ := upsert_candidate_spec st email profile t1 hnd hcompat
    obtain ⟨d2, hfind2, hup2, hca2, hans2⟩ :=
      upsert_candidate_spec (upsert_candidate st email profile t1) email profile t2 hnd hcompat
    refine ⟨d1, d2, hfind1, hfind2, ?_, ?_, hup1, hup2, ht⟩
    · rw [hca2 hca, hfind1]
    · rw [hans2, hfind1]

theorem c5_upsert_frame_witness :
    ((∀ d, findDoc (Store.docs ⟨[], 0⟩) "a@b.com" = some d →
      ∃ d1, findDoc (upsert_candidate ⟨[], 0⟩ "a@b.com"
          [("name", PyVal.str "Ann"), ("email", PyVal.str "a@b.com")] 1).docs "a@b.com" =
            some d1 ∧
        dget d1 "answers" = dget d "answers" ∧
        dget d1 "created_at" = dget d "created_at") ∧
    (∃ d1 d2,
      findDoc (upsert_candidate ⟨[], 0⟩ "a@b.com"
        [("name", PyVal.str "Ann"), ("email", PyVal.str "a@b.com")] 1).docs "a@b.com" = some d1 ∧
      findDoc (upsert_candidate (upsert_candidate ⟨[], 0⟩ "a@b.com"
          [("name", PyVal.str "Ann"), ("email", PyVal.str "a@b.com")] 1) "a@b.com"
          [("name", PyVal.str "Ann"), ("email", PyVal.str "a@b.com")] 2).docs "a@b.com" =
        some d2 ∧
      dget d2 "created_at" = dget d1 "created_at" ∧
      dget d2 "answers" = dget d1 "answers" ∧
      dget d1 "updated_at" = some (.time 1) ∧
      dget d2 "updated_at" = some (.time 2) ∧ 1 < 2)) :=
  c5_upsert_frame ⟨[], 0⟩ "a@b.com" [("name", PyVal.str "Ann"), ("email", PyVal.str "a@b.com")]
    1 2 (by decide) rfl rfl (by decide)

/-- C5 is refuted as stated: for the payload `{"created_at": time 99}` the
upsert `$set`s every payload field except `answers`, so it overwrites
`created_at` on an existing document (the `$setOnInsert` protection applies
only on insert). -/
theorem c5_counterexample :
    findDoc (upsert_candidate ⟨[[("_id", PyVal.int 0), ("email", PyVal.str "a@b.com"),
          ("created_at", PyVal.time 1)]], 1⟩ "a@b.com" [("created_at", PyVal.time 99)] 5).docs
        "a@b.com" =
      some [("_id", PyVal.int 0), ("email", PyVal.str "a@b.com"),
            ("created_at", PyVal.time 99), ("updated_at", PyVal.time 5)] ∧
    dget [("_id", PyVal.int 0), ("email", PyVal.str "a@b.com"), ("created_at", PyVal.time 1)]
        "created_at" = some (PyVal.time 1) ∧
    dget [("_id", PyVal.int 0), ("email", PyVal.str "a@b.com"),
          ("created_at", PyVal.time 99), ("updated_at", PyVal.time 5)] "created_at" =
      some (PyVal.time 99) ∧
    some (PyVal.time 99) ≠ some (PyVal.time 1) :=
  ⟨rfl, rfl, rfl, by simp⟩

theorem dget_append_right (l l2 : Doc) (k : String) (h : dget l k = Option.none) :
    dget (l ++ l2) k = dget l2 k := by
  induction l with
  | nil => rfl
  | cons kv rest ih =>
    obtain ⟨k', v'⟩ := kv
    by_cases hk : k' = k
    · simp [dget, hk] at h
    · simp only [dget, hk, if_false, ite_false] at h
      simp only [List.cons_append, dget]
      rw [if_neg hk]
      exact ih h

theorem pySetdefault_absent (d : Doc) (k : String) (v : PyVal)
    (h : dget d k = Option.none) :
    dget (pySetdefault d k v) k = some v := by
  rw [pySetdefault, h]
  simp only [Option.isSome_none, Bool.false_eq_true, if_false, ite_false]
  rw [dget_append_right d _ k h]
  simp [dget]

theorem pySetdefault_present (d : Doc) (k : String) (v w : PyVal)
    (h : dget d k = some w) :
    dget (pySetdefault d k v) k = some w := by
  simp [pySetdefault, h]

theorem isEmail_after_push (email : String) (d0 : Doc) (v tv : PyVal)
    (h : isEmailDoc email d0 = true) :
    isEmailDoc email (setField (pushField d0 "answers" v) "updated_at" tv) = true := by
  rw [isEmailDoc] at h ⊢
  rw [dget_setField_ne _ _ _ _ (by decide)]
  cases hx : dget d0 "answers" with
  | some w =>
    cases w <;>
      (simp only [pushField, hx]; rw [dget_setField_ne _ _ _ _ (by decide)]; exact h)
  | none =>
    simp only [pushField, hx]
    rw [dget_setField_ne _ _ _ _ (by decide)]
    exact h

/-- C6 (amended): appending an answer for an email with no existing
document is a silent no-op when auto-create is disabled — the store is
returned unchanged and no error of any kind is raised (the `update_one`
with `upsert=False` simply matches nothing) — while with the flag true (the
default) the parent document is created with the single timestamped answer
and `updated_at` set. -/
theorem c6_add_answer_missing (st : Store) (email : String) (a : Doc) (now : Nat)
    (hmiss : findDoc st.docs email = Option.none) :
    add_answer st email a false now = st ∧
    ∃ d, findDoc (add_answer st email a true now).docs email = some d ∧
      dget d "answers" = some (.list [.dict (pySetdefault a "timestamp" (.time now))]) ∧
      dget d "updated_at" = some (.time now) := by
  constructor
  · simp [add_answer, hmiss]
  · have hem : isEmailDoc email
        [("_id", PyVal.int st.nextId), ("email", PyVal.str email),
         ("answers", PyVal.list [.dict (pySetdefault a "timestamp" (.time now))]),
         ("updated_at", PyVal.time now)] = true := by
      simp [isEmailDoc, dget]
    have hdocs : (add_answer st email a true now).docs =
        st.docs ++ [[("_id", PyVal.int st.nextId), ("email", PyVal.str email),
         ("answers", PyVal.list [.dict (pySetdefault a "timestamp" (.time now))]),
         ("updated_at", PyVal.time now)]] := by
      simp [add_answer, hmiss]
    refine ⟨[("_id", PyVal.int st.nextId), ("email", PyVal.str email),
         ("answers", PyVal.list [.dict (pySetdefault a "timestamp" (.time now))]),
         ("updated_at", PyVal.time now)], ?_, ?_, ?_⟩
    · rw [hdocs, findDoc_append_one st.docs email _ hmiss, if_pos hem]
    · simp [dget]
    · simp [dget]

theorem c6_add_answer_missing_witness :
    (add_answer ⟨[], 0⟩ "a@b.com" [("answer", PyVal.str "hi")] false 7 = ⟨[], 0⟩ ∧
    ∃ d, findDoc (add_answer ⟨[], 0⟩ "a@b.com" [("answer", PyVal.str "hi")] true 7).docs
        "a@b.com" = some d ∧
      dget d "answers" =
        some (.list [.dict (pySetdefault [("answer", PyVal.str "hi")] "timestamp" (.time 7))]) ∧
      dget d "updated_at" = some (.time 7)) :=
  c6_add_answer_missing ⟨[], 0⟩ "a@b.com" [("answer", PyVal.str "hi")] 7 rfl

/-- C6 is refuted as stated: with auto-create disabled and no matching
document, `add_answer` raises nothing and changes nothing — the store is
returned unchanged and still contains no document — rather than failing
with a `NotFoundError`. -/
theorem c6_counterexample :
    add_answer ⟨[], 0⟩ "a@b.com" [("answer", PyVal.str "hi")] false 7 = ⟨[], 0⟩ ∧
    (add_answer ⟨[], 0⟩ "a@b.com" [("answer", PyVal.str "hi")] false 7).docs.length = 0 :=
  ⟨rfl, rfl⟩

theorem appendAnswers_existing (email : String) (ans : List (Doc × Nat)) :
    ∀ (st : Store) (d : Doc) (xs : List PyVal),
      findDoc st.docs email = some d →
      dget d "answers" = some (.list xs) →
      ∃ d', findDoc (appendAnswers st email ans).docs email = some d' ∧
        dget d' "answers" = some (.list (xs ++ ans.map
          (fun pr => PyVal.dict (pySetdefault pr.1 "timestamp" (.time pr.2))))) ∧
        dget d' "updated_at" =
          (match ans.getLast? with
           | some pr => some (PyVal.time pr.2)
           | Option.none => dget d "updated_at") := by
  induction ans with
  | nil =>
    intro st d xs hfind hans
    exact ⟨d, hfind, by simpa using hans, rfl⟩
  | cons pr rest ih =>
    obtain ⟨a, t⟩ := pr
    intro st d xs hfind hans
    have hemail := findDoc_isEmail st.docs email d hfind
    have hf : ∀ d0, isEmailDoc email d0 = true →
        isEmailDoc email
          (setField (pushField d0 "answers"
            (.dict (pySetdefault a "timestamp" (.time t)))) "updated_at" (.time t)) = true :=
      fun d0 h0 => isEmail_after_push email d0 _ _ h0
    have hdocs : (add_answer st email a true t).docs =
        updateFirst st.docs email
          (fun d0 => setField (pushField d0 "answers"
            (.dict (pySetdefault a "timestamp" (.time t)))) "updated_at" (.time t)) := by
      simp only [add_answer, hfind]
    have hfind' : findDoc (add_answer st email a true t).docs email =
        some (setField (pushField d "answers"
          (.dict (pySetdefault a "timestamp" (.time t)))) "updated_at" (.time t)) := by
      rw [hdocs, findDoc_updateFirst st.docs email _ hf, hfind]
      rfl
    have hans' : dget (setField (pushField d "answers"
        (.dict (pySetdefault a "timestamp" (.time t)))) "updated_at" (.time t)) "answers" =
        some (.list (xs ++ [.dict (pySetdefault a "timestamp" (.time t))])) := by
      rw [dget_setField_ne _ _ _ _ (by decide)]
      simp only [pushField, hans]
      exact dget_setField_self _ _ _
    have hup' : dget (setField (pushField d "answers"
        (.dict (pySetdefault a "timestamp" (.time t)))) "updated_at" (.time t)) "updated_at" =
        some (.time t) := dget_setField_self _ _ _
    have hstep : appendAnswers st email ((a, t) :: rest) =
        appendAnswers (add_answer st email a true t) email rest := rfl
    obtain ⟨d', hfd', hansd', hupd'⟩ := ih (add_answer st email a true t) _ _ hfind' hans'
    refine ⟨d', by rw [hstep]; exact hfd', ?_, ?_⟩
    · rw [hansd']
      simp [List.append_assoc]
    · rw [hstep] at *
      cases rest with
      | nil =>
        simp only [List.getLast?_singleton]
        rw [hupd', hup']
        rfl
      | cons r rs =>
        rw [List.getLast?_cons_cons, hupd']
        cases hgl : (r :: rs).getLast? with
        | none => simp [List.getLast?_eq_none_iff] at hgl
        | some pr => rfl

/-- C8: starting from an email with no document, N `add_answer` calls (with
the default auto-create) leave an `answers` sequence of exactly the N
appended records in call order; each record is stamped with the call-time
`timestamp` exactly when none was supplied, and the document's `updated_at`
is set by every call (ending at the last call's instant). -/
theorem c8_append_accumulation (st : Store) (email : String) (ans : List (Doc × Nat))
    (hmiss : findDoc st.docs email = Option.none) (hne : ans ≠ []) :
    (∃ d, findDoc (appendAnswers st email ans).docs email = some d ∧
      dget d "answers" = some (.list (ans.map
        (fun pr => PyVal.dict (pySetdefault pr.1 "timestamp" (.time pr.2))))) ∧
      (ans.map (fun pr => PyVal.dict (pySetdefault pr.1 "timestamp" (.time pr.2)))).length =
        ans.length ∧
      dget d "updated_at" = (ans.getLast?).map (fun pr => PyVal.time pr.2)) ∧
    (∀ (a : Doc) (t : Nat), dget a "timestamp" = Option.none →
      dget (pySetdefault a "timestamp" (.time t)) "timestamp" = some (.time t)) ∧
    (∀ (a : Doc) (t : Nat) (v : PyVal), dget a "timestamp" = some v →
      dget (pySetdefault a "timestamp" (.time t)) "timestamp" = some v) := by
  refine ⟨?_, fun a t h => pySetdefault_absent a _ _ h,
    fun a t v h => pySetdefault_present a _ _ v h⟩
  cases ans with
  | nil => exact absurd rfl hne
  | cons pr rest =>
    obtain ⟨a, t⟩ := pr
    have hem : isEmailDoc email
        [("_id", PyVal.int st.nextId), ("email", PyVal.str email),
         ("answers", PyVal.list [.dict (pySetdefault a "timestamp" (.time t))]),
         ("updated_at", PyVal.time t)] = true := by
      simp [isEmailDoc, dget]
    have hdocs : (add_answer st email a true t).docs =
        st.docs ++ [[("_id", PyVal.int st.nextId), ("email", PyVal.str email),
         ("answers", PyVal.list [.dict (pySetdefault a "timestamp" (.time t))]),
         ("updated_at", PyVal.time t)]] := by
      simp [add_answer, hmiss]
    have hfound : findDoc (add_answer st email a true t).docs email =
        some [("_id", PyVal.int st.nextId), ("email", PyVal.str email),
         ("answers", PyVal.list [.dict (pySetdefault a "timestamp" (.time t))]),
         ("updated_at", PyVal.time t)] := by
      rw [hdocs, findDoc_append_one st.docs email _ hmiss, if_pos hem]
    have hans0 : dget [("_id", PyVal.int st.nextId), ("email", PyVal.str email),
         ("answers", PyVal.list [.dict (pySetdefault a "timestamp" (.time t))]),
         ("updated_at", PyVal.time t)] "answers" =
        some (.list [.dict (pySetdefault a "timestamp" (.time t))]) := by simp [dget]
    have hstep : appendAnswers st email ((a, t) :: rest) =
        appendAnswers (add_answer st email a true t) email rest := rfl
    obtain ⟨d, hfd, hansd, hupd⟩ :=
      appendAnswers_existing email rest (add_answer st email a true t) _ _ hfound hans0
    refine ⟨d, by rw [hstep]; exact hfd, ?_, by simp, ?_⟩
    · rw [hansd]
      simp
    · have hnd_up : dget [("_id", PyVal.int st.nextId), ("email", PyVal.str email),
          ("answers", PyVal.list [.dict (pySetdefault a "timestamp" (.time t))]),
          ("updated_at", PyVal.time t)] "updated_at" = some (PyVal.time t) := by simp [dget]
      cases rest with
      | nil =>
        rw [hupd, hnd_up]
        rfl
      | cons r rs =>
        rw [hupd, List.getLast?_cons_cons]
        cases hgl : (r :: rs).getLast? with
        | none => simp [List.getLast?_eq_none_iff] at hgl
        | some pr2 => rfl

theorem c8_append_accumulation_witness :
    ((∃ d, findDoc (appendAnswers ⟨[], 0⟩ "a@b.com"
        [([("answer", PyVal.str "A1")], 3), ([("answer", PyVal.str "A2"), ("timestamp", PyVal.time 1)], 4)]).docs
        "a@b.com" = some d ∧
      dget d "answers" = some (.list
        ([([("answer", PyVal.str "A1")], 3), ([("answer", PyVal.str "A2"), ("timestamp", PyVal.time 1)], 4)].map
          (fun pr => PyVal.dict (pySetdefault pr.1 "timestamp" (.time pr.2))))) ∧
      (([([("answer", PyVal.str "A1")], 3), ([("answer", PyVal.str "A2"), ("timestamp", PyVal.time 1)], 4)].map
          (fun pr => PyVal.dict (pySetdefault pr.1 "timestamp" (.time pr.2))))).length =
        [([("answer", PyVal.str "A1")], 3), ([("answer", PyVal.str "A2"), ("timestamp", PyVal.time 1)], 4)].length ∧
      dget d "updated_at" =
        ([([("answer", PyVal.str "A1")], 3), ([("answer", PyVal.str "A2"), ("timestamp", PyVal.time 1)], 4)].getLast?).map
          (fun pr => PyVal.time pr.2)) ∧
    (∀ (a : Doc) (t : Nat), dget a "timestamp" = Option.none →
      dget (pySetdefault a "timestamp" (.time t)) "timestamp" = some (.time t)) ∧
    (∀ (a : Doc) (t : Nat) (v : PyVal), dget a "timestamp" = some v →
      dget (pySetdefault a "timestamp" (.time t)) "timestamp" = some v)) :=
  c8_append_accumulation ⟨[], 0⟩ "a@b.com"
    [([("answer", PyVal.str "A1")], 3), ([("answer", PyVal.str "A2"), ("timestamp", PyVal.time 1)], 4)]
    rfl (List.cons_ne_nil _ _)

/-- C9 (amended): for a candidate whose email chain strips to the empty
string, `save_candidate_and_answers` fails with the `ValueError`
precondition (a `ValidationError`) before any data operation — no upsert,
append or read is attempted and the store content is untouched; when the
gateway is already initialised the server is not contacted at all, but when
it is uninitialised the lazy auto-init performs the connection handshake
(`server_info`) before the validation runs. -/
theorem c9_validation_before_data_ops (w : World) (candidate : Doc)
    (answers : List Doc) (now : Nat) (s : String)
    (hmail : emailChain candidate = .str s) (hblank : pyStrip s = "") :
    (w.initialized = true →
      save_candidate_and_answers candidate answers now w =
        (.error (.validation
          "Candidate must include an \x27email\x27 field to save to MongoDB."), w)) ∧
    (w.initialized = false → w.connectOk = true →
      save_candidate_and_answers candidate answers now w =
        (.error (.validation
          "Candidate must include an \x27email\x27 field to save to MongoDB."),
         { w with initialized := true, trace := w.trace ++ [.connect] })) := by
  have hbody : ∀ w' : World, saveBody candidate answers now w' =
      (.error (.validation
        "Candidate must include an \x27email\x27 field to save to MongoDB."), w') := by
    intro w'
    simp [saveBody, hmail, hblank]
  constructor
  · intro hinit
    rw [save_candidate_and_answers, if_pos hinit, hbody]
  · intro hinit hconn
    rw [save_candidate_and_answers, if_neg (by simp [hinit]), if_pos hconn, hbody]

theorem c9_validation_before_data_ops_witness :
    (save_candidate_and_answers [] [] 0 ⟨true, true, ⟨[], 0⟩, [], Option.none⟩ =
      (.error (.validation
        "Candidate must include an \x27email\x27 field to save to MongoDB."),
       ⟨true, true, ⟨[], 0⟩, [], Option.none⟩)) ∧
    (save_candidate_and_answers [] [] 0 ⟨false, true, ⟨[], 0⟩, [], Option.none⟩ =
      (.error (.validation
        "Candidate must include an \x27email\x27 field to save to MongoDB."),
       ⟨true, true, ⟨[], 0⟩, [StoreEvent.connect], Option.none⟩)) :=
  ⟨(c9_validation_before_data_ops ⟨true, true, ⟨[], 0⟩, [], Option.none⟩ [] [] 0 "" rfl rfl).1
      rfl,
   (c9_validation_before_data_ops ⟨false, true, ⟨[], 0⟩, [], Option.none⟩ [] [] 0 "" rfl rfl).2
      rfl rfl⟩

/-- C9 is refuted as stated: with the gateway uninitialised, saving a
candidate with no email still performs the auto-init connection handshake
(the store *is* contacted) before failing with the validation error. -/
theorem c9_counterexample :
    (save_candidate_and_answers [] [] 0 ⟨false, true, ⟨[], 0⟩, [], Option.none⟩).1 =
      .error (.validation
        "Candidate must include an \x27email\x27 field to save to MongoDB.") ∧
    (save_candidate_and_answers [] [] 0 ⟨false, true, ⟨[], 0⟩, [], Option.none⟩).2.trace =
      [StoreEvent.connect] ∧
    [StoreEvent.connect] ≠ ([] : List StoreEvent) :=
  ⟨rfl, rfl, by decide⟩

theorem buildProfile_ok (candidate : Doc) (email : String) (profile : Doc)
    (h : buildProfile candidate email = .ok profile) :
    (profile.map Prod.fst).Nodup ∧
    dget profile "email" = some (.str email) ∧
    dget profile "created_at" = Option.none ∧
    emailFieldOkB profile email = true := by
  rw [buildProfile] at h
  split at h
  · cases h
  · split at h
    · cases h
    · have hp := Except.ok.inj h
      subst hp
      refine ⟨?_, rfl, rfl, ?_⟩
      · show (["name", "email", "phone", "position", "meta", "tech_stack"] : List String).Nodup
        decide
      · simp [emailFieldOkB, dget]

theorem pushAnswersLoop_nofault (email : String) (now : Nat) (ans : List Doc) :
    ∀ (i c : Bool) (st : Store) (tr : List StoreEvent),
      pushAnswersLoop email now ans ⟨i, c, st, tr, Option.none⟩ =
        (true, ⟨i, c,
          ans.foldl (fun s raw => add_answer s email (ansDocOf raw now) true now) st,
          tr ++ ans.map (fun _ => StoreEvent.pushAns email), Option.none⟩) := by
  induction ans with
  | nil =>
    intro i c st tr
    simp [pushAnswersLoop]
  | cons raw rest ih =>
    intro i c st tr
    rw [pushAnswersLoop]
    simp only [World.op]
    rw [ih]
    simp [List.append_assoc]

theorem pushAnswersLoop_fault (email : String) (now : Nat) :
    ∀ (k : Nat) (ans : List Doc) (i c : Bool) (st : Store) (tr : List StoreEvent),
      k < ans.length →
      pushAnswersLoop email now ans ⟨i, c, st, tr, some k⟩ =
        (false, ⟨i, c,
          (ans.take k).foldl (fun s raw => add_answer s email (ansDocOf raw now) true now) st,
          tr ++ (ans.take k).map (fun _ => StoreEvent.pushAns email), some 0⟩) := by
  intro k
  induction k with
  | zero =>
    intro ans i c st tr hlen
    cases ans with
    | nil => simp at hlen
    | cons raw rest => simp [pushAnswersLoop, World.op]
  | succ k ih =>
    intro ans i c st tr hlen
    cases ans with
    | nil => simp at hlen
    | cons raw rest =>
      rw [pushAnswersLoop]
      simp only [World.op]
      rw [ih rest i c _ _ (by simpa using hlen)]
      simp [List.append_assoc]

theorem foldl_add_answer_found (email : String) (now : Nat) (ans : List Doc) :
    ∀ (st : Store) (d : Doc), findDoc st.docs email = some d →
      ∃ d', findDoc
        ((ans.foldl (fun s raw => add_answer s email (ansDocOf raw now) true now) st)).docs
        email = some d' := by
  induction ans with
  | nil =>
    intro st d h
    exact ⟨d, h⟩
  | cons raw rest ih =>
    intro st d h
    rw [List.foldl_cons]
    have hdocs : (add_answer st email (ansDocOf raw now) true now).docs =
        updateFirst st.docs email
          (fun d0 => setField (pushField d0 "answers"
            (.dict (pySetdefault (ansDocOf raw now) "timestamp" (.time now))))
            "updated_at" (.time now)) := by
      simp only [add_answer, h]
    have hfind' : findDoc (add_answer st email (ansDocOf raw now) true now).docs email =
        some (setField (pushField d "answers"
          (.dict (pySetdefault (ansDocOf raw now) "timestamp" (.time now))))
          "updated_at" (.time now)) := by
      rw [hdocs, findDoc_updateFirst st.docs email _
        (fun d0 h0 => isEmail_after_push email d0 _ _ h0), h]
      rfl
    exact ih _ _ hfind'

/-- C7: the composite save upserts the profile, then appends each answer in
input order, then re-reads the document and returns its persisted `_id` as
a string — the store effect is exactly `pureSave` (upsert followed by the
ordered appends) and the driver trace is the upsert event, one push event
per answer in order, then the read event; and it is not transactional:
when the driver fails after the upsert and the first `k` appends, the `k`
already-appended answers remain persisted (no rollback) and the caller
receives the wrapped `RuntimeError`. -/
theorem c7_composite_save (w : World) (candidate : Doc) (answers : List Doc)
    (now : Nat) (s email : String) (profile : Doc)
    (hinit : w.initialized = true)
    (hmail : emailChain candidate = .str s)
    (hemail : pyStrip s = email)
    (hne : email ≠ "")
    (hprof : buildProfile candidate email = .ok profile) :
    (w.faultBudget = Option.none →
      ∃ d, findDoc (pureSave w.store email profile answers now).docs email = some d ∧
        save_candidate_and_answers candidate answers now w =
          (.ok (pyStr ((dget d "_id").getD .none)),
           ⟨true, w.connectOk, pureSave w.store email profile answers now,
            w.trace ++ [.upsertCand email] ++
              answers.map (fun _ => StoreEvent.pushAns email) ++ [.findOne email],
            Option.none⟩)) ∧
    (∀ k, w.faultBudget = some (k + 1) → k < answers.length →
      (save_candidate_and_answers candidate answers now w).1 =
        .error (.wrapped "driver error") ∧
      (save_candidate_and_answers candidate answers now w).2.store =
        (answers.take k).foldl
          (fun st raw => add_answer st email (ansDocOf raw now) true now)
          (upsert_candidate w.store email profile now)) := by
  obtain ⟨i, c, st, tr, fb⟩ := w
  have hi : i = true := hinit
  subst hi
  obtain ⟨hnd, hpe, hpca, hcompat⟩ := buildProfile_ok candidate email profile hprof
  constructor
  · intro hfb
    have hfb' : fb = Option.none := hfb
    subst hfb'
    obtain ⟨d0, hd0, -, -, -⟩ := upsert_candidate_spec st email profile now hnd hcompat
    obtain ⟨d, hd⟩ := foldl_add_answer_found email now answers
      (upsert_candidate st email profile now) d0 hd0
    refine ⟨d, hd, ?_⟩
    have h1 : save_candidate_and_answers candidate answers now ⟨true, c, st, tr, Option.none⟩ =
        saveBody candidate answers now ⟨true, c, st, tr, Option.none⟩ := rfl
    rw [h1]
    simp only [saveBody, hmail, hemail, hprof, World.op, hne, if_false, ite_false,
      pushAnswersLoop_nofault, hd]
    simp [pureSave, List.append_assoc]
  · intro k hfb hk
    have hfb' : fb = some (k + 1) := hfb
    subst hfb'
    have h1 : save_candidate_and_answers candidate answers now ⟨true, c, st, tr, some (k + 1)⟩ =
        saveBody candidate answers now ⟨true, c, st, tr, some (k + 1)⟩ := rfl
    rw [h1]
    simp only [saveBody, hmail, hemail, hprof, World.op, hne, if_false, ite_false]
    rw [pushAnswersLoop_fault email now k answers true c _ _ hk]
    exact ⟨rfl, rfl⟩

theorem c7_composite_save_witness :
    (∃ d, findDoc (pureSave ⟨[], 0⟩ "a@b.com"
        [("name", PyVal.str ""), ("email", PyVal.str "a@b.com"), ("phone", PyVal.str ""),
         ("position", PyVal.str ""), ("meta", PyVal.dict [("status", PyVal.str "in_progress")]),
         ("tech_stack", PyVal.list [])]
        [[("q", PyVal.str "Q"), ("answer", PyVal.str "A")]] 5).docs "a@b.com" = some d ∧
      save_candidate_and_answers [("email", PyVal.str "a@b.com")]
          [[("q", PyVal.str "Q"), ("answer", PyVal.str "A")]] 5
          ⟨true, true, ⟨[], 0⟩, [], Option.none⟩ =
        (.ok (pyStr ((dget d "_id").getD .none)),
         ⟨true, true,
          pureSave ⟨[], 0⟩ "a@b.com"
            [("name", PyVal.str ""), ("email", PyVal.str "a@b.com"), ("phone", PyVal.str ""),
             ("position", PyVal.str ""),
             ("meta", PyVal.dict [("status", PyVal.str "in_progress")]),
             ("tech_stack", PyVal.list [])]
            [[("q", PyVal.str "Q"), ("answer", PyVal.str "A")]] 5,
          [StoreEvent.upsertCand "a@b.com", StoreEvent.pushAns "a@b.com",
           StoreEvent.findOne "a@b.com"],
          Option.none⟩)) ∧
    ((save_candidate_and_answers [("email", PyVal.str "a@b.com")]
        [[("q", PyVal.str "Q"), ("answer", PyVal.str "A")]] 5
        ⟨true, true, ⟨[], 0⟩, [], some 1⟩).1 = .error (.wrapped "driver error") ∧
     (save_candidate_and_answers [("email", PyVal.str "a@b.com")]
        [[("q", PyVal.str "Q"), ("answer", PyVal.str "A")]] 5
        ⟨true, true, ⟨[], 0⟩, [], some 1⟩).2.store =
       ([[("q", PyVal.str "Q"), ("answer", PyVal.str "A")]].take 0).foldl
         (fun st raw => add_answer st "a@b.com" (ansDocOf raw 5) true 5)
         (upsert_candidate ⟨[], 0⟩ "a@b.com"
           [("name", PyVal.str ""), ("email", PyVal.str "a@b.com"), ("phone", PyVal.str ""),
            ("position", PyVal.str ""),
            ("meta", PyVal.dict [("status", PyVal.str "in_progress")]),
            ("tech_stack", PyVal.list [])] 5)) :=
  ⟨(c7_composite_save ⟨true, true, ⟨[], 0⟩, [], Option.none⟩
      [("email", PyVal.str "a@b.com")] [[("q", PyVal.str "Q"), ("answer", PyVal.str "A")]]
      5 "a@b.com" "a@b.com"
      [("name", PyVal.str ""), ("email", PyVal.str "a@b.com"), ("phone", PyVal.str ""),
       ("position", PyVal.str ""), ("meta", PyVal.dict [("status", PyVal.str "in_progress")]),
       ("tech_stack", PyVal.list [])]
      rfl rfl rfl (by decide) rfl).1 rfl,
   (c7_composite_save ⟨true, true, ⟨[], 0⟩, [], some 1⟩
      [("email", PyVal.str "a@b.com")] [[("q", PyVal.str "Q"), ("answer", PyVal.str "A")]]
      5 "a@b.com" "a@b.com"
      [("name", PyVal.str ""), ("email", PyVal.str "a@b.com"), ("phone", PyVal.str ""),
       ("position", PyVal.str ""), ("meta", PyVal.dict [("status", PyVal.str "in_progress")]),
       ("tech_stack", PyVal.list [])]
      rfl rfl rfl (by decide) rfl).2 0 rfl (by decide)⟩

/-! ## Concrete evaluations of the embedded operations -/

example : pyStr (.dict [("a", .int 3)]) = "\x7b\x27a\x27: 3\x7d" := rfl

example : pyTruthy (.str "") = false := by decide

example : dget [("a", .int 1), ("a", .int 2)] "a" = some (.int 1) := rfl

example : pyStrip "  a b\n " = "a b" := rfl

example : pyStrip "" = "" := rfl

example : normElem (.str "  What is a GIL?  ") = .ok ⟨"What is a GIL?", ""⟩ := rfl

example : normElem (.dict [("q", .str "Q1"), ("focus", .str "F1")]) = .ok ⟨"Q1", "F1"⟩ := rfl

example : normElem (.dict [("note", .int 4), ("hint", .str "use idx")]) = .ok ⟨"use idx", ""⟩ := rfl

example : normElem (.int 7) = .ok ⟨"7", ""⟩ := rfl

example : normElem (.dict [("question", .int 5)]) = .error "AttributeError: strip on non-string question" := rfl

example : normElem (.dict [("question", .str ""), ("q", .str "Real")]) = .ok ⟨"Real", ""⟩ := rfl

example : normElem (.dict [("question", .str "Q"), ("focus", .int 3)]) = .ok ⟨"Q", "3"⟩ := rfl

example : normElem (.dict [("question", .str "Q"), ("focus", .int 0)]) = .ok ⟨"Q", ""⟩ := rfl

example : generate_questions [] .unavailable = .ok [] := rfl

example : generate_questions ["  ", ""] .unavailable = .ok [] := rfl

example : generate_questions ["Python"] .unavailable = .error .transport := rfl

example : generate_questions ["Python"] (.returned "oops" Option.none) = .error (.malformed "oops") := rfl

example :
    generate_questions ["Python"]
      (.returned "" (some (.dict [("Python", .list [.str "a", .str "b", .str "c"])]))) =
      .error (.insufficient "Python") := rfl

example :
    generate_questions [" Python "]
      (.returned "" (some (.dict [("Python",
        .list [.dict [("question", .str " Q1 ")],
               .dict [("question", .str "Q2"), ("ideal_answer_focus", .str "f2")],
               .dict [("question", .str "Q3"), ("ideal_answer_focus", .none)]])]))) =
      .ok [("Python", [⟨"Q1", ""⟩, ⟨"Q2", "f2"⟩, ⟨"Q3", ""⟩])] := rfl

example :
    generate_questions ["Python", "Go"]
      (.returned "" (some (.dict [("Python", .list [])]))) =
      .error (.insufficient "Python") := rfl

example :
    normalize_answer_input [("q", .str "Q1"), ("answer", .str "A1")] 9 =
      [("q", .str "Q1"), ("answer", .str "A1"), ("question_id", .none),
       ("question", .str "Q1"), ("tech", .str "General"), ("score", .none),
       ("timestamp", .time 9)] := rfl

example :
    ansDocOf [("question", .str "Q"), ("answer", .str "A"), ("timestamp", .time 3)] 9 =
      [("question_id", .none), ("question", .str "Q"), ("answer", .str "A"),
       ("tech", .str "General"), ("score", .none), ("timestamp", .time 3)] := rfl

example :
    (save_candidate_and_answers [] [] 5
      ⟨false, true, ⟨[], 0⟩, [], Option.none⟩).1 =
      .error (.validation "Candidate must include an \x27email\x27 field to save to MongoDB.") := rfl

example :
    (save_candidate_and_answers [] [] 5
      ⟨false, true, ⟨[], 0⟩, [], Option.none⟩).2.trace = [.connect] := rfl

example :
    (save_candidate_and_answers [("email", .str " a@b.com ")] [[("q", .str "Q"), ("answer", .str "A")]] 5
      ⟨true, true, ⟨[], 0⟩, [], Option.none⟩).1 = .ok "0" := rfl

example :
    (save_candidate_and_answers [("email", .str "a@b.com")] [] 5
      ⟨true, true, ⟨[], 0⟩, [], Option.none⟩).2.trace =
      [.upsertCand "a@b.com", .findOne "a@b.com"] := rfl
